import Mathlib

/-!
Verification development for the bounded collection stubs and allocator shim
of the model-checking runtime library.

The embedding models the C sources directly:
  - `library/rmc/stubs/C/vec/vec.c` (growable array of u32 words),
  - `library/rmc/stubs/C/hashset/hashset.c` (narrow, u16-domain hash set),
  - `library/rmc/rmc_stub.c` (wide, capped u32-domain hash set),
  - `library/kani/kani_lib.c` (allocator shim: dealloc and realloc).

Machine integers are modelled as `Nat` with explicit reduction modulo the
type width where the C code can wrap (`size_t` is 64 bits, elements are
32 bits, narrow hash-set slots are 16-bit patterns, wide slots 32-bit
patterns). Fatal assertions (`assert(0)`, failed preconditions in a direct
run) are modelled with `Option`/`Except`: `none` / `.error` means the run
aborts at the assertion.
-/

/-- Modulus of the 64-bit `size_t` of the modelled target. -/
def SIZE_MOD : Nat := 18446744073709551616

/-- Modulus of the 32-bit element type stored in the vector. -/
def U32_MOD : Nat := 4294967296

/-- Hard allocation ceiling from vec.c (`#define MAX_MALLOC_SIZE`). -/
def MAX_MALLOC_SIZE : Nat := 18014398509481984

/-- A vector from vec.c: a word array (total map from index to u32 pattern),
a logical length and a capacity, both `size_t`. -/
structure vec where
  mem : Nat → Nat
  len : Nat
  capacity : Nat

/-- vec.c `vec_sized_grow`: `min_cap = capacity + additional`,
`grow_cap = capacity * 2` (both in `size_t`, so modulo 2^64),
`new_cap = max(min_cap, grow_cap)`; `assert(0)` (fatal, modelled `none`)
when `new_cap` exceeds the allocation ceiling, otherwise the capacity is
updated and realloc preserves the contents. -/
def vec_sized_grow (v : vec) (additional : Nat) : Option vec :=
  let min_cap := (v.capacity + additional) % SIZE_MOD
  let grow_cap := (v.capacity * 2) % SIZE_MOD
  let new_cap := if min_cap > grow_cap then min_cap else grow_cap
  if new_cap > MAX_MALLOC_SIZE then none
  else some { v with capacity := new_cap }

/-- vec.c `vec_push`: grows by `vec_sized_grow(v, 1)` when `len == capacity`,
then writes the element at index `len` and increments `len`. -/
def vec_push (v : vec) (elem : Nat) : Option vec :=
  (if v.len = v.capacity then vec_sized_grow v 1 else some v).bind fun w =>
    some { w with
      mem := fun i => if i = w.len then elem % U32_MOD else w.mem i,
      len := (w.len + 1) % SIZE_MOD }

/-- vec.c `vec_pop`: `assert(len > 0)` (a precondition violation, modelled
`none`, when the vector is empty), then decrements `len` and returns the
word at the new `len`. -/
def vec_pop (v : vec) : Option (Nat × vec) :=
  if v.len > 0 then
    some (v.mem (v.len - 1), { v with len := v.len - 1 })
  else none

/-- vec.c `vec_append`: reserves space with `vec_sized_grow(v1, v2->len)`,
pushes the elements of `v2` one by one with `vec_push`, and finally
executes `v1->len = v1->len + v2->len`. -/
def vec_append (v1 v2 : vec) : Option vec :=
  (vec_sized_grow v1 v2.len).bind fun w =>
    ((List.range v2.len).foldlM (fun acc i => vec_push acc (v2.mem i)) w).map
      fun u => { u with len := (u.len + v2.len) % SIZE_MOD }

/-- A concrete one-element vector [5] with capacity 4. -/
def vA : vec := ⟨fun i => if i = 0 then 5 else 0, 1, 4⟩

/-- A concrete one-element vector [7] with capacity 4. -/
def vB : vec := ⟨fun i => if i = 0 then 7 else 0, 1, 4⟩

/-- A concrete empty vector with capacity 4. -/
def vC : vec := ⟨fun _ => 0, 0, 4⟩

/-- C1: the claim says `append(a, b)` leaves `a` with length
`len(a) + len(b)`. The code does not: the push loop already increments the
length once per element and the final `v1->len = v1->len + v2->len` adds
the length of `b` a second time, so appending the one-element vector vB to
the one-element vector vA yields length 3, not 1 + 1 = 2. -/
theorem vec_append_length_bug :
    (vec_append vA vB).map vec.len = some 3 ∧ vA.len + vB.len = 2 :=
  ⟨rfl, rfl⟩

/-- Characterization of `vec_sized_grow`: the selected capacity is the
maximum of the two wrapped candidates, and the grow is fatal exactly when
that maximum exceeds the allocation ceiling. -/
theorem vec_sized_grow_eq (v : vec) (a : Nat) :
    vec_sized_grow v a =
      if MAX_MALLOC_SIZE <
          max ((v.capacity * 2) % SIZE_MOD) ((v.capacity + a) % SIZE_MOD) then
        none
      else
        some (vec.mk v.mem v.len
          (max ((v.capacity * 2) % SIZE_MOD) ((v.capacity + a) % SIZE_MOD))) := by
  simp only [vec_sized_grow]
  have hmax : (if (v.capacity + a) % SIZE_MOD > (v.capacity * 2) % SIZE_MOD then
        (v.capacity + a) % SIZE_MOD else (v.capacity * 2) % SIZE_MOD) =
      max ((v.capacity * 2) % SIZE_MOD) ((v.capacity + a) % SIZE_MOD) := by
    rcases Nat.lt_or_ge ((v.capacity * 2) % SIZE_MOD) ((v.capacity + a) % SIZE_MOD)
      with h | h
    · rw [if_pos h, Nat.max_eq_right (Nat.le_of_lt h)]
    · rw [if_neg (Nat.not_lt.mpr h), Nat.max_eq_left h]
  rw [hmax]

/-- C3: the growth law of `vec_sized_grow`. Within the range of the size
type (no wrap of `capacity + additional` nor of `capacity * 2`), the grow
either hits the allocation ceiling with `max(capacity * 2, capacity +
additional)` (fatal), or returns with the new capacity equal to
`max(capacity * 2, capacity + additional)`, which is at least
`capacity + additional` and at least `capacity * 2`. -/
theorem vec_sized_grow_growth_law (v : vec) (additional : Nat)
    (h1 : v.capacity + additional < SIZE_MOD)
    (h2 : v.capacity * 2 < SIZE_MOD) :
    (vec_sized_grow v additional = none →
      MAX_MALLOC_SIZE < max (v.capacity * 2) (v.capacity + additional)) ∧
    (∀ w, vec_sized_grow v additional = some w →
      w.capacity = max (v.capacity * 2) (v.capacity + additional) ∧
      v.capacity + additional ≤ w.capacity ∧
      v.capacity * 2 ≤ w.capacity ∧
      w.capacity ≤ MAX_MALLOC_SIZE) := by
  rw [vec_sized_grow_eq, Nat.mod_eq_of_lt h1, Nat.mod_eq_of_lt h2]
  constructor
  · intro h
    split at h
    · omega
    · simp at h
  · intro w hw
    split at hw
    · simp at hw
    · rw [Option.some_inj] at hw
      subst hw
      rename_i hceil
      exact ⟨rfl, Nat.le_max_right _ _, Nat.le_max_left _ _, Nat.le_of_not_lt hceil⟩

/-- C3 witness: a concrete grow on the empty capacity-4 vector with
3 additional slots yields capacity 8 = max(8, 7). -/
theorem vec_sized_grow_growth_law_witness :
    (vC.capacity + 3 < SIZE_MOD ∧ vC.capacity * 2 < SIZE_MOD) ∧
    (∀ w, vec_sized_grow vC 3 = some w →
      w.capacity = max (vC.capacity * 2) (vC.capacity + 3) ∧
      vC.capacity + 3 ≤ w.capacity ∧
      vC.capacity * 2 ≤ w.capacity ∧
      w.capacity ≤ MAX_MALLOC_SIZE) :=
  ⟨⟨by decide, by decide⟩,
    (vec_sized_grow_growth_law vC 3 (by decide) (by decide)).2⟩

/-- C4 counterexample: the claim says the `capacity + additional`
computation never wraps before the comparison, so that a normal return
implies the new capacity is at least `capacity + additional` as an exact
integer. On the empty capacity-4 vector with `additional = 2^64 - 4` the
sum wraps to 0 in `size_t`, the grow returns normally with capacity 8, and
8 is far below the exact `capacity + additional`. -/
theorem vec_sized_grow_wrap_counterexample :
    (vec_sized_grow vC (SIZE_MOD - 4)).map vec.capacity = some 8 ∧
    8 < vC.capacity + (SIZE_MOD - 4) :=
  ⟨rfl, by decide⟩

/-- C4 amended: when `capacity + additional` does not exceed the size type
(true of every value reachable through the stub API, where capacity and
additional are at most the allocation ceiling), a normal return of
`vec_sized_grow` yields a capacity of at least `capacity + additional`. -/
theorem vec_sized_grow_no_wrap_ge (v : vec) (additional : Nat)
    (h : v.capacity + additional < SIZE_MOD) (w : vec)
    (hw : vec_sized_grow v additional = some w) :
    v.capacity + additional ≤ w.capacity := by
  rw [vec_sized_grow_eq, Nat.mod_eq_of_lt h] at hw
  split at hw
  · simp at hw
  · rw [Option.some_inj] at hw
    subst hw
    exact Nat.le_max_right _ _

/-- C4 amended witness: the concrete grow of the empty capacity-4 vector
by 3 returns capacity 8 ≥ 4 + 3. -/
theorem vec_sized_grow_no_wrap_ge_witness :
    vC.capacity + 3 < SIZE_MOD ∧
    vC.capacity + 3 ≤ (vec.mk (fun _ => 0) 0 8).capacity :=
  ⟨by decide, vec_sized_grow_no_wrap_ge vC 3 (by decide) (vec.mk (fun _ => 0) 0 8) rfl⟩

/-- Growing never changes the contents or the logical length. -/
theorem vec_sized_grow_preserves (v : vec) (a : Nat) (w : vec)
    (hw : vec_sized_grow v a = some w) : w.mem = v.mem ∧ w.len = v.len := by
  rw [vec_sized_grow_eq] at hw
  split at hw
  · simp at hw
  · rw [Option.some_inj] at hw
    subst hw
    exact ⟨rfl, rfl⟩

/-- Shape of a successful push: the element pattern is written at the old
length and the length is incremented, for some capacity. -/
theorem vec_push_shape (v : vec) (elem : Nat) (b : vec)
    (hp : vec_push v elem = some b) :
    ∃ cap, b = vec.mk (fun i => if i = v.len then elem % U32_MOD else v.mem i)
      ((v.len + 1) % SIZE_MOD) cap := by
  rw [vec_push] at hp
  cases hif : (if v.len = v.capacity then vec_sized_grow v 1 else some v) with
  | none => rw [hif] at hp; simp at hp
  | some w =>
    have hwv : w.mem = v.mem ∧ w.len = v.len := by
      by_cases hcap : v.len = v.capacity
      · rw [if_pos hcap] at hif
        exact vec_sized_grow_preserves v 1 w hif
      · rw [if_neg hcap, Option.some_inj] at hif
        subst hif
        exact ⟨rfl, rfl⟩
    rw [hif] at hp
    simp only [Option.some_bind, Option.some_inj] at hp
    exact ⟨w.capacity, by rw [← hp, hwv.1, hwv.2]⟩

/-- C8: pop is the left inverse of push. If `vec_push v val` succeeds with
result `b` (the grow, if any, did not hit the ceiling), then the length of
`b` is one more than the length of `v`, popping `b` returns exactly `val`
together with a vector whose length is the original length (one less than
the length of `b`) and whose live elements are the original elements of
`v`; moreover pop reports a precondition violation exactly on an empty
vector. -/
theorem vec_pop_push_left_inverse (v : vec) (val : Nat)
    (hval : val < U32_MOD) (hlen : v.len + 1 < SIZE_MOD) (b : vec)
    (hp : vec_push v val = some b) :
    b.len = v.len + 1 ∧
    (∃ b2, vec_pop b = some (val, b2) ∧ b2.len = v.len ∧ b2.len = b.len - 1 ∧
      ∀ i, i < v.len → b2.mem i = v.mem i) ∧
    (vec_pop v = none ↔ v.len = 0) := by
  obtain ⟨cap, hb⟩ := vec_push_shape v val b hp
  subst hb
  rw [Nat.mod_eq_of_lt hlen, Nat.mod_eq_of_lt hval]
  refine ⟨rfl, ⟨?_, ?_, ?_, ?_, ?_⟩, ?_⟩
  · exact vec.mk (fun i => if i = v.len then val else v.mem i) v.len cap
  · rw [vec_pop]
    simp
  · rfl
  · rfl
  · intro i hi
    simp only []
    rw [if_neg (Nat.ne_of_lt hi)]
  · rw [vec_pop]
    split
    · simp
      omega
    · simp
      omega

/-- C8 witness: pushing 9 onto the concrete empty capacity-4 vector and
popping returns 9 and restores the empty length. -/
theorem vec_pop_push_left_inverse_witness :
    9 < U32_MOD ∧ vC.len + 1 < SIZE_MOD ∧
    ((vec.mk (fun i => if i = 0 then 9 % U32_MOD else 0) 1 4).len = vC.len + 1 ∧
    (∃ b2, vec_pop (vec.mk (fun i => if i = 0 then 9 % U32_MOD else 0) 1 4) = some (9, b2) ∧
      b2.len = vC.len ∧
      b2.len = (vec.mk (fun i => if i = 0 then 9 % U32_MOD else 0) 1 4).len - 1 ∧
      ∀ i, i < vC.len → b2.mem i = vC.mem i) ∧
    (vec_pop vC = none ↔ vC.len = 0)) :=
  ⟨by decide, by decide,
    vec_pop_push_left_inverse vC 9 (by decide) (by decide)
      (vec.mk (fun i => if i = 0 then 9 % U32_MOD else 0) 1 4) rfl⟩

namespace Narrow

/-- hashset.c `const int16_t SENTINEL = 1`, as a 16-bit pattern. -/
def SENTINEL : Nat := 1

/-- hashset.c `hashset_new` allocates `calloc(UINT16_MAX, sizeof(uint16_t))`,
that is 65535 slots, indices 0 to 65534. -/
def DOMAIN_SLOTS : Nat := 65535

/-- hashset.c `hasher`: the identity function on `uint16_t`. -/
def hasher (value : Nat) : Nat := value % 65536

/-- The narrow hash set from hashset.c: the domain array of 16-bit slot
patterns (a total map from slot index to stored pattern). -/
structure hashset where
  domain : Nat → Nat

/-- hashset.c `hashset_new`: all slots zeroed by calloc, slot 0 set to the
sentinel. -/
def hashset_new : hashset := ⟨fun i => if i = 0 then SENTINEL else 0⟩

/-- hashset.c `hashset_insert`: returns 0 (already present) when
`(hash == 0 && domain[hash] != SENTINEL) || (hash != 0 && domain[hash] != 0)`,
otherwise writes the value at its hash and returns 1. A slot access outside
the allocation made by `hashset_new` is out of bounds (`none`). -/
def hashset_insert (s : hashset) (value : Nat) : Option (Nat × hashset) :=
  let hash := hasher value
  if hash < DOMAIN_SLOTS then
    if (hash = 0 ∧ s.domain hash ≠ SENTINEL) ∨ (hash ≠ 0 ∧ s.domain hash ≠ 0) then
      some (0, s)
    else
      some (1, ⟨fun i => if i = hash then value % 65536 else s.domain i⟩)
  else none

/-- hashset.c `hashset_contains`: returns 1 under the same presence test as
insert, otherwise 0, without mutation. -/
def hashset_contains (s : hashset) (value : Nat) : Option Nat :=
  let hash := hasher value
  if hash < DOMAIN_SLOTS then
    if (hash = 0 ∧ s.domain hash ≠ SENTINEL) ∨ (hash ≠ 0 ∧ s.domain hash ≠ 0) then
      some 1
    else
      some 0
  else none

/-- hashset.c `hashset_remove`: returns 0 when the value is absent,
otherwise resets the slot to its empty encoding (sentinel at slot 0, zero
elsewhere) and returns 1. -/
def hashset_remove (s : hashset) (value : Nat) : Option (Nat × hashset) :=
  let hash := hasher value
  if hash < DOMAIN_SLOTS then
    if (hash = 0 ∧ s.domain hash = SENTINEL) ∨ (hash ≠ 0 ∧ s.domain hash = 0) then
      some (0, s)
    else
      some (1, ⟨fun i => if i = hash then (if hash = 0 then SENTINEL else 0) else s.domain i⟩)
  else none

/-- A mutation of the narrow hash set: an insert or a remove of a value. -/
inductive Op where
  | ins (value : Nat)
  | rem (value : Nat)

/-- One mutation step; the returned flag is dropped. -/
def step (s : hashset) (op : Op) : Option hashset :=
  match op with
  | .ins v => (hashset_insert s v).map Prod.snd
  | .rem v => (hashset_remove s v).map Prod.snd

/-- The state after running a sequence of mutations from the constructor;
`none` when an operation went out of bounds. -/
def run (ops : List Op) : Option hashset :=
  ops.foldlM step hashset_new

/-- The domain encoding invariant of the narrow hash set: slot 0 holds the
sentinel (0 absent) or the value 0 (0 present); every other allocated slot
holds 0 (absent) or its own index (present). -/
def Inv (s : hashset) : Prop :=
  (s.domain 0 = SENTINEL ∨ s.domain 0 = 0) ∧
  ∀ i, 0 < i → i < DOMAIN_SLOTS → (s.domain i = 0 ∨ s.domain i = i)

/-- The invariant lifted to possibly-aborted states. -/
def InvO : Option hashset → Prop
  | none => True
  | some s => Inv s

end Narrow

/-- A single narrow-set mutation preserves the domain encoding invariant. -/
theorem narrow_step_preserves (s : Narrow.hashset) (op : Narrow.Op)
    (hs : Narrow.Inv s) : Narrow.InvO (Narrow.step s op) := by
  obtain ⟨h0, hi⟩ := hs
  cases op with
  | ins v =>
    simp only [Narrow.step, Narrow.hashset_insert, Narrow.hasher]
    split
    · split
      · exact ⟨h0, hi⟩
      · refine ⟨?_, ?_⟩
        · simp only []
          split
          · rename_i hz
            rw [← hz]
            right
            rfl
          · exact h0
        · intro i hipos hilt
          simp only []
          split
          · rename_i hz
            right
            rw [hz]
          · exact hi i hipos hilt
    · trivial
  | rem v =>
    simp only [Narrow.step, Narrow.hashset_remove, Narrow.hasher]
    split
    · split
      · exact ⟨h0, hi⟩
      · refine ⟨?_, ?_⟩
        · simp only []
          split
          · rename_i hz
            rw [if_pos hz.symm]
            left
            rfl
          · exact h0
        · intro i hipos hilt
          simp only []
          split
          · rename_i hz
            rw [if_neg (by omega : ¬ v % 65536 = 0)]
            · left
              rfl
          · exact hi i hipos hilt
    · trivial

/-- C9: in every narrow-variant state reachable from the constructor by any
sequence of insert and remove operations, every allocated domain slot at a
nonzero index holds either 0 (that value absent) or the index itself (that
value present), and slot 0 holds either the sentinel (0 absent) or the
value 0 (0 present). -/
theorem narrow_hashset_invariant (ops : List Narrow.Op) :
    Narrow.InvO (Narrow.run ops) := by
  have key : ∀ (l : List Narrow.Op) (s : Narrow.hashset), Narrow.Inv s →
      Narrow.InvO (List.foldlM Narrow.step s l) := by
    intro l
    induction l with
    | nil =>
      intro s hs
      exact hs
    | cons op l ih =>
      intro s hs
      rw [List.foldlM_cons]
      have h1 := narrow_step_preserves s op hs
      cases hstep : Narrow.step s op with
      | none =>
        show Narrow.InvO (none >>= fun init => List.foldlM Narrow.step init l)
        simp only [Option.bind_eq_bind, Option.none_bind]
        trivial
      | some s2 =>
        rw [hstep] at h1
        show Narrow.InvO (some s2 >>= fun init => List.foldlM Narrow.step init l)
        simp only [Option.bind_eq_bind, Option.some_bind]
        exact ih s2 h1
  refine key ops Narrow.hashset_new ⟨Or.inl rfl, ?_⟩
  intro i hipos _
  left
  simp only [Narrow.hashset_new]
  rw [if_neg (by omega : ¬ i = 0)]

/-- C5: the claim says every 16-bit value, including 65535, hashes to a
slot inside the allocation made by the constructor. The constructor
allocates `calloc(UINT16_MAX, ...)`, that is 65535 slots with indices 0 to
65534, while the 16-bit key space has 65536 values: `hasher(65535) = 65535`
lies one past the end of the allocation, so insert and contains at 65535
access the domain out of bounds. -/
theorem narrow_domain_off_by_one :
    Narrow.hasher 65535 = 65535 ∧
    ¬ Narrow.hasher 65535 < Narrow.DOMAIN_SLOTS ∧
    Narrow.hashset_insert Narrow.hashset_new 65535 = none ∧
    Narrow.hashset_contains Narrow.hashset_new 65535 = none ∧
    Narrow.hashset_remove Narrow.hashset_new 65535 = none :=
  ⟨rfl, by decide, rfl, rfl, rfl⟩

namespace Wide

/-- rmc_stub.c `const SENTINEL = -1`, stored in an `int32_t` slot: the
32-bit pattern of -1. -/
def SENTINEL : Nat := 4294967295

/-- rmc_stub.c `hashset_new` allocates `calloc(4096, sizeof(int32_t))`:
4096 slots. -/
def DOMAIN_SLOTS : Nat := 4096

/-- rmc_stub.c `hasher`: the identity function on `uint32_t`. -/
def hasher (value : Nat) : Nat := value % 4294967296

/-- The wide, capped hash set from rmc_stub.c: a domain array of 32-bit
slot patterns. -/
structure hashset where
  domain : Nat → Nat

/-- rmc_stub.c `hashset_new`: all slots zeroed by calloc, slot 0 set to the
sentinel. -/
def hashset_new : hashset := ⟨fun i => if i = 0 then SENTINEL else 0⟩

/-- rmc_stub.c `hashset_insert`: the presence test is
`(hash == 0 && domain[hash] != SENTINEL) || domain[hash] != 0` — note the
second disjunct is not guarded by `hash != 0`. A slot access at or beyond
the 4096 allocated slots is out of bounds (`none`). -/
def hashset_insert (s : hashset) (value : Nat) : Option (Nat × hashset) :=
  let hash := hasher value
  if hash < DOMAIN_SLOTS then
    if (hash = 0 ∧ s.domain hash ≠ SENTINEL) ∨ s.domain hash ≠ 0 then
      some (0, s)
    else
      some (1, ⟨fun i => if i = hash then value % 4294967296 else s.domain i⟩)
  else none

/-- rmc_stub.c `hashset_contains`: same presence test as insert, returning
1 when it holds and 0 otherwise, without mutation. -/
def hashset_contains (s : hashset) (value : Nat) : Option Nat :=
  let hash := hasher value
  if hash < DOMAIN_SLOTS then
    if (hash = 0 ∧ s.domain hash ≠ SENTINEL) ∨ s.domain hash ≠ 0 then
      some 1
    else
      some 0
  else none

/-- rmc_stub.c `hashset_remove`: the absence test is
`(hash == 0 && domain[hash] == SENTINEL) || domain[hash] == 0` (again with
an unguarded second disjunct); on a present value the slot is reset to the
sentinel at index 0 and to zero elsewhere. -/
def hashset_remove (s : hashset) (value : Nat) : Option (Nat × hashset) :=
  let hash := hasher value
  if hash < DOMAIN_SLOTS then
    if (hash = 0 ∧ s.domain hash = SENTINEL) ∨ s.domain hash = 0 then
      some (0, s)
    else
      some (1, ⟨fun i => if i = hash then (if hash = 0 then SENTINEL else 0) else s.domain i⟩)
  else none

end Wide

/-- C2: the claim says that for both variants, on a newly constructed set,
insert(v) returns 1 and makes contains(v) true, for every v in the key
domain including the boundary value 0. The wide variant violates this at
v = 0: its presence test lacks the `hash != 0` guard on the second
disjunct, so the sentinel in slot 0 (pattern of -1, nonzero) already
counts as present — a fresh wide set answers contains(0) = 1, insert(0)
returns 0 (no-op) leaving the set unchanged, and remove(0) returns 0, so
the value 0 can never be inserted at all. -/
theorem wide_hashset_zero_bug :
    Wide.hashset_contains Wide.hashset_new 0 = some 1 ∧
    Wide.hashset_insert Wide.hashset_new 0 = some (0, Wide.hashset_new) ∧
    Wide.hashset_remove Wide.hashset_new 0 = some (0, Wide.hashset_new) :=
  ⟨rfl, rfl, rfl⟩

/-- kani_lib.c `__KANI_is_nonzero_power_of_two`:
`(i != 0) && (i & (i - 1)) == 0`. -/
def __KANI_is_nonzero_power_of_two (i : Nat) : Bool :=
  (i != 0) && (i &&& (i - 1)) == 0

/-- A live allocation of the modelled heap: its recorded byte size
(`__CPROVER_OBJECT_SIZE`) and its byte contents. -/
structure Allocation where
  size : Nat
  bytes : Nat → Nat

/-- The heap the allocator shim acts on: a map from handle (pointer) to the
live allocation there, if any, together with the next fresh handle. Handle
0 is the null pointer. -/
structure Heap where
  mem : Nat → Option Allocation
  next : Nat

/-- Wellformedness of the modelled heap: the null handle is reserved and
every handle at or beyond `next` is unused. -/
def Heap.WF (h : Heap) : Prop :=
  1 ≤ h.next ∧ ∀ i, h.next ≤ i → h.mem i = none

/-- The host `malloc`: on success returns a fresh non-null handle to an
allocation of the requested size with unspecified contents (modelled as
zero bytes); on failure returns the null handle and leaves the heap
unchanged. The success of the host allocator is an input (`succeed`). -/
def malloc (h : Heap) (size : Nat) (succeed : Bool) : Nat × Heap :=
  if succeed then
    (h.next,
      ⟨fun i => if i = h.next then some ⟨size, fun _ => 0⟩ else h.mem i, h.next + 1⟩)
  else (0, h)

/-- The host `free`: releases the allocation at a handle. -/
def free (h : Heap) (ptr : Nat) : Heap :=
  ⟨fun i => if i = ptr then none else h.mem i, h.next⟩

/-- kani_lib.c `__rust_dealloc`: asserts (assert-then-assume; abort in a
direct run, modelled `.error`) that the alignment is a nonzero power of two
and that the recorded object size of the handle equals the declared size,
then frees the handle. -/
def __rust_dealloc (h : Heap) (ptr size align : Nat) : Except String Heap :=
  if __KANI_is_nonzero_power_of_two align = false then
    .error "Alignment is power of two"
  else
    match h.mem ptr with
    | none => .error "dealloc of an invalid handle"
    | some a =>
      if a.size = size then .ok (free h ptr)
      else .error "rust_dealloc must be called on an object whose allocated size matches its layout"

/-- kani_lib.c `__rust_realloc`: asserts that the handle is non-null, that
the new size is positive and that the alignment is a nonzero power of two;
then calls `malloc(new_size)`; when that returns non-null it copies
`min(new_size, old_size)` bytes from the original allocation into the new
one, frees the original handle and returns the new handle; when malloc
fails it returns the null handle with the heap untouched. -/
def __rust_realloc (h : Heap) (ptr old_size align new_size : Nat)
    (succeed : Bool) : Except String (Nat × Heap) :=
  if ptr = 0 then .error "rust_realloc must be called with a non-null pointer"
  else if new_size = 0 then .error "rust_realloc must be called with a size greater than 0"
  else if __KANI_is_nonzero_power_of_two align = false then .error "Alignment is power of two"
  else
    match h.mem ptr with
    | none => .error "realloc of an invalid handle"
    | some a =>
      let res := malloc h new_size succeed
      if res.1 = 0 then .ok (0, res.2)
      else
        let bytes_to_copy := if new_size < old_size then new_size else old_size
        let copied : Allocation := ⟨new_size, fun j => if j < bytes_to_copy then a.bytes j else 0⟩
        let h2 : Heap := ⟨fun i => if i = res.1 then some copied else res.2.mem i, res.2.next⟩
        .ok (res.1, free h2 ptr)

/-- C6: for a live handle (and a power-of-two alignment), `__rust_dealloc`
reports a precondition violation exactly when the declared size differs
from the allocation's recorded size; when the sizes match, the handle is
released and no violation is reported. -/
theorem rust_dealloc_size_check (h : Heap) (ptr size align : Nat)
    (a : Allocation)
    (hpow : __KANI_is_nonzero_power_of_two align = true)
    (hlive : h.mem ptr = some a) :
    ((∃ e, __rust_dealloc h ptr size align = .error e) ↔ a.size ≠ size) ∧
    (a.size = size →
      ∃ h2, __rust_dealloc h ptr size align = .ok h2 ∧ h2.mem ptr = none) := by
  rw [__rust_dealloc, hpow]
  simp only [Bool.true_eq_false, if_false, hlive]
  constructor
  · constructor
    · rintro ⟨e, he⟩ hsz
      rw [if_pos hsz] at he
      exact Except.noConfusion he
    · intro hsz
      rw [if_neg hsz]
      exact ⟨_, rfl⟩
  · intro hsz
    rw [if_pos hsz]
    refine ⟨free h ptr, rfl, ?_⟩
    simp [free]

/-- Concrete two-handle heap for the allocator witnesses: handle 1 holds a
2-byte allocation whose bytes are all 7. -/
def H1 : Heap := ⟨fun i => if i = 1 then some ⟨2, fun _ => 7⟩ else none, 2⟩

/-- The allocation stored at handle 1 of the concrete heap. -/
def A1 : Allocation := ⟨2, fun _ => 7⟩

/-- The concrete heap is wellformed. -/
theorem H1_wf : H1.WF := by
  refine ⟨by decide, ?_⟩
  intro i hi
  simp only [H1] at hi
  have hne : ¬ i = 1 := by omega
  simp [H1, hne]

/-- C6 witness: deallocating handle 1 of the concrete heap with declared
size 2 and alignment 8 matches the recorded size, succeeds and releases
the handle; a mismatched size is exactly the violation case. -/
theorem rust_dealloc_size_check_witness :
    __KANI_is_nonzero_power_of_two 8 = true ∧ H1.mem 1 = some A1 ∧
    (((∃ e, __rust_dealloc H1 1 2 8 = .error e) ↔ A1.size ≠ 2) ∧
     (A1.size = 2 →
       ∃ h2, __rust_dealloc H1 1 2 8 = .ok h2 ∧ h2.mem 1 = none)) :=
  ⟨by decide, rfl, rust_dealloc_size_check H1 1 2 8 A1 (by decide) rfl⟩

/-- C7: under the preconditions (non-null live handle, positive new size,
power-of-two alignment, wellformed heap), `__rust_realloc` reports no
violation and either returns a fresh non-null handle of the new size whose
first `min(old_size, new_size)` bytes equal the original contents with the
original handle released, or, when the underlying allocation fails,
returns the null indicator leaving the heap untouched. -/
theorem rust_realloc_contract (h : Heap) (ptr old_size align new_size : Nat)
    (succeed : Bool) (a : Allocation)
    (hwf : h.WF) (hptr : ptr ≠ 0) (hnew : 0 < new_size)
    (hpow : __KANI_is_nonzero_power_of_two align = true)
    (hlive : h.mem ptr = some a) :
    ∃ r h2, __rust_realloc h ptr old_size align new_size succeed = .ok (r, h2) ∧
      (succeed = true →
        r ≠ 0 ∧ h2.mem ptr = none ∧
        ∃ b, h2.mem r = some b ∧ b.size = new_size ∧
          ∀ i, i < min old_size new_size → b.bytes i = a.bytes i) ∧
      (succeed = false → r = 0 ∧ h2 = h) := by
  obtain ⟨hnz, hfresh⟩ := hwf
  have hptrlt : ptr < h.next := by
    by_contra hge
    rw [hfresh ptr (by omega)] at hlive
    exact Option.noConfusion hlive
  rw [__rust_realloc, if_neg hptr, if_neg (by omega : ¬ new_size = 0), hpow]
  simp only [Bool.true_eq_false, if_false, hlive]
  cases succeed with
  | false =>
    have hm : malloc h new_size false = (0, h) := rfl
    rw [hm]
    dsimp only
    rw [if_pos rfl]
    refine ⟨0, h, rfl, ?_, fun _ => ⟨rfl, rfl⟩⟩
    intro hcontra
    exact Bool.noConfusion hcontra
  | true =>
    have hm : malloc h new_size true =
        (h.next, Heap.mk
          (fun i => if i = h.next then some (Allocation.mk new_size (fun _ => 0))
            else h.mem i)
          (h.next + 1)) := rfl
    rw [hm]
    dsimp only
    rw [if_neg (by omega : ¬ h.next = 0)]
    refine ⟨h.next, _, rfl, ?_, ?_⟩
    · intro _
      have hne : ¬ h.next = ptr := by omega
      refine ⟨by omega, ?_, ?_⟩
      · show (free _ ptr).mem ptr = none
        simp [free]
      · refine ⟨Allocation.mk new_size
          (fun j => if j < (if new_size < old_size then new_size else old_size)
            then a.bytes j else 0), ?_, rfl, ?_⟩
        · show (free _ ptr).mem h.next = some _
          simp [free, hne]
        · intro i hi
          dsimp only
          have hlt : i < (if new_size < old_size then new_size else old_size) := by
            rcases Nat.lt_or_ge new_size old_size with hc | hc
            · rw [if_pos hc]
              omega
            · rw [if_neg (Nat.not_lt.mpr hc)]
              omega
          rw [if_pos hlt]
    · intro hcontra
      exact Bool.noConfusion hcontra

/-- C7 witness: reallocating the live 2-byte handle 1 of the concrete heap
to 3 bytes with a succeeding host allocation returns a fresh handle whose
first two bytes are the original contents; the hypotheses hold at this
input. -/
theorem rust_realloc_contract_witness :
    (H1.WF ∧ (1 : Nat) ≠ 0 ∧ 0 < 3 ∧ __KANI_is_nonzero_power_of_two 8 = true ∧
      H1.mem 1 = some A1) ∧
    (∃ r h2, __rust_realloc H1 1 2 8 3 true = .ok (r, h2) ∧
      (true = true →
        r ≠ 0 ∧ h2.mem 1 = none ∧
        ∃ b, h2.mem r = some b ∧ b.size = 3 ∧
          ∀ i, i < min 2 3 → b.bytes i = A1.bytes i) ∧
      (true = false → r = 0 ∧ h2 = H1)) :=
  ⟨⟨H1_wf, by decide, by decide, by decide, rfl⟩,
    rust_realloc_contract H1 1 2 8 3 true A1 H1_wf (by decide) (by decide)
      (by decide) rfl⟩

/-- C10: `__rust_realloc` is atomic on failure. For a non-null live handle
and a positive new size, when the underlying allocation fails the call
returns the null indicator and the heap is exactly the original one: the
original allocation is not freed and its contents are unchanged. -/
theorem rust_realloc_atomic_on_failure (h : Heap)
    (ptr old_size align new_size : Nat) (a : Allocation)
    (hptr : ptr ≠ 0) (hnew : 0 < new_size)
    (hpow : __KANI_is_nonzero_power_of_two align = true)
    (hlive : h.mem ptr = some a) :
    __rust_realloc h ptr old_size align new_size false = .ok (0, h) := by
  rw [__rust_realloc, if_neg hptr, if_neg (by omega : ¬ new_size = 0), hpow]
  simp only [Bool.true_eq_false, if_false, hlive]
  simp [malloc]

/-- C10 witness: a failing reallocation of the live handle 1 of the
concrete heap returns the null handle and the untouched heap. -/
theorem rust_realloc_atomic_on_failure_witness :
    ((1 : Nat) ≠ 0 ∧ 0 < 3 ∧ __KANI_is_nonzero_power_of_two 8 = true ∧
      H1.mem 1 = some A1) ∧
    __rust_realloc H1 1 2 8 3 false = .ok (0, H1) :=
  ⟨⟨by decide, by decide, by decide, rfl⟩,
    rust_realloc_atomic_on_failure H1 1 2 8 3 A1 (by decide) (by decide)
      (by decide) rfl⟩
